import Mathlib

set_option maxRecDepth 10000

/-!
Verification development for the shipping-label barcode-angle reader
(`barcode_detect.py` and `detect_barcode_angle.py`).

The two Python source files are shallowly embedded below.  Raster images
are lists of integer pixel rows; machine `uint8` arithmetic is modelled on
`Nat`/`Int` with explicit saturation; the floating-point quantities that the
code manipulates (Otsu statistics, contour areas, angles in degrees) are
modelled exactly, on `ℚ` in statements and on integer statistics inside
the Otsu scan.  Every OpenCV primitive the code calls is given an
executable model faithful to its documented behaviour on 8-bit images:
`cvtColor(RGB2GRAY)` with its fixed-point weights and its fail-fast
assertions, `Sobel` with `ddepth=-1` (saturating at the input depth),
normalised 3x3 box blur, Otsu global thresholding, morphological
closing/opening with rectangular and cross structuring elements and the
default constant border (out-of-range samples are ignored), external-contour
extraction on 8-connected components with collinear-run compression, and
Green-formula contour areas.  `cv2.minAreaRect` and the rasterisation done
by `cv2.drawContours` produce floating-point geometry with no exact
counterpart; they are passed to the embedded `get_angle` as explicit
function parameters, so theorems quantify over them and constrain only the
data the Python code actually inspects (the rectangle's `angle` field and
the fact that the draw call is applied to the caller's image).

Python exceptions are modelled by `Except PyErr`: `PyErr.invalidImage` is
the `cv2.error` raised by `cvtColor` on an empty input or an unsupported
channel count, `PyErr.noBarcodeFound` is the `IndexError` raised by
`contours[0]` when the contour list is empty, and `PyErr.zeroDivisionError`
is the `ZeroDivisionError` raised by `scale_image` on a zero-width image.
-/

/-- Errors the embedded Python code can raise, named after the spec's error
taxonomy; each constructor models one concrete raise site (see above). -/
inductive PyErr where
  | invalidImage
  | noBarcodeFound
  | zeroDivisionError
deriving DecidableEq

/-- Single-channel 8-bit raster: `data` holds `rows` rows of `cols`
pixel values in `[0, 255]`. -/
structure GImg where
  rows : Nat
  cols : Nat
  data : List (List Nat)
deriving DecidableEq

/-- Pixel read with row-major indexing; out-of-range reads default to 0
(the embedding only reads in bounds or through a border rule). -/
def GImg.px (g : GImg) (y x : Nat) : Nat :=
  (g.data.getD y []).getD x 0

/-- Multi-channel 8-bit raster (`channels` interleaved values per pixel). -/
structure CImg where
  rows : Nat
  cols : Nat
  channels : Nat
  data : List (List (List Nat))
deriving DecidableEq

/-- Channel value of a pixel of a colour raster. -/
def CImg.px (img : CImg) (y x ch : Nat) : Nat :=
  ((img.data.getD y []).getD x []).getD ch 0

/-- Build the pixel rows of a single-channel raster from a generator. -/
def tabulate (r c : Nat) (f : Nat → Nat → Nat) : List (List Nat) :=
  (List.range r).map fun y => (List.range c).map fun x => f y x

/-- Build the pixel rows of a colour raster from a generator. -/
def tabulateC (r c ch : Nat) (f : Nat → Nat → Nat → Nat) : List (List (List Nat)) :=
  (List.range r).map fun y => (List.range c).map fun x => (List.range ch).map fun k => f y x k

/-- OpenCV `BORDER_REFLECT_101` index interpolation for a kernel of radius
one: `-1 ↦ 1` and `len ↦ len - 2`, the edge pixel itself not repeated; a
length-one axis always resolves to index 0, as in `cv::borderInterpolate`. -/
def reflect101 (len : Nat) (i : Int) : Nat :=
  if len ≤ 1 then 0
  else if i < 0 then (-i).toNat
  else if (len : Int) ≤ i then (2 * ((len : Int) - 1) - i).toNat
  else i.toNat

/-- `saturate_cast<uchar>` on an integer filter response: clamp to
`[0, 255]`. -/
def satcast8 (i : Int) : Nat :=
  (min (max i 0) 255).toNat

/-- Full-precision horizontal Sobel response (`dx=1, dy=0, ksize=3`,
kernel rows `(-1,0,1), (-2,0,2), (-1,0,1)` applied as a correlation with
`BORDER_REFLECT_101`): positive where intensity increases left to right. -/
def sobelRawX (g : GImg) (y x : Nat) : Int :=
  let v : Int → Int → Int := fun dy dx =>
    (g.px (reflect101 g.rows ((y : Int) + dy)) (reflect101 g.cols ((x : Int) + dx)) : Int)
  (v (-1) 1 + 2 * v 0 1 + v 1 1) - (v (-1) (-1) + 2 * v 0 (-1) + v 1 (-1))

/-- `cv2.Sobel(img, ddepth=-1, dx=1, dy=0)` on an 8-bit image: the raw
response saturated back to the input depth, so negative responses clip
to zero. -/
def sobelX_u8 (g : GImg) : GImg :=
  ⟨g.rows, g.cols, tabulate g.rows g.cols fun y x => satcast8 (sobelRawX g y x)⟩

/-- Rounded mean of the 3x3 neighbourhood (`BORDER_REFLECT_101`).  The sum
of nine 8-bit values divided by 9 never lands exactly on a half, so
round-to-nearest is unambiguous and `(2*s + 9) / 18` computes it. -/
def blur3px (g : GImg) (y x : Nat) : Nat :=
  let v : Int → Int → Nat := fun dy dx =>
    g.px (reflect101 g.rows ((y : Int) + dy)) (reflect101 g.cols ((x : Int) + dx))
  let s : Nat :=
    v (-1) (-1) + v (-1) 0 + v (-1) 1 + v 0 (-1) + v 0 0 + v 0 1 +
      v 1 (-1) + v 1 0 + v 1 1
  (2 * s + 9) / 18

/-- `cv2.blur(img, ksize=(3,3))`: normalised box filter. -/
def blur3 (g : GImg) : GImg :=
  ⟨g.rows, g.cols, tabulate g.rows g.cols fun y x => blur3px g y x⟩

/-- List of all pixel values of a single-channel raster, row major. -/
def pixelList (g : GImg) : List Nat :=
  (List.range g.rows).flatMap fun y => (List.range g.cols).map fun x => g.px y x

/-- One step of the Otsu scan over bin `i`, an exact transcription of
OpenCV's `getThreshold_Otsu` loop on integer statistics.  The state is
`(c1, s1, maxA2, maxD, maxVal)` where `c1` and `s1` are the cumulative
count and first moment of the class up to the current bin (OpenCV's
`q1 = c1/n` and `mu1 = s1/c1`), and the running maximum between-class
variance is kept as the exact fraction `maxA2 / (n^2 * maxD)`: with
`A = s1*n - S*c1` one has
`sigma = q1*q2*(mu1-mu2)^2 = A^2 / (n^2 * c1*(n-c1))`, so
`sigma > maxSigma` is the integer test `maxA2 * D < A2 * maxD`.  Bins
leaving an empty class on either side (`c1 = 0` or `c1 = n`) are skipped,
the exact analogue of OpenCV's `FLT_EPSILON` guard, and ties keep the
first maximiser, as the strict `>` does. `n` is the pixel count and `S`
the total first moment. -/
def otsuStep (hist : Nat → Nat) (n S : Nat) (st : Nat × Nat × Nat × Nat × Nat)
    (i : Nat) : Nat × Nat × Nat × Nat × Nat :=
  let c1 := st.1 + hist i
  let s1 := st.2.1 + i * hist i
  if c1 = 0 ∨ c1 = n then (c1, s1, st.2.2.1, st.2.2.2.1, st.2.2.2.2)
  else
    let a := ((s1 * n : Nat) : Int) - ((S * c1 : Nat) : Int)
    let a2 := a.natAbs * a.natAbs
    let d := c1 * (n - c1)
    if st.2.2.1 * d < a2 * st.2.2.2.1 then (c1, s1, a2, d, i)
    else (c1, s1, st.2.2.1, st.2.2.2.1, st.2.2.2.2)

/-- Histogram of a single-channel raster. -/
def imgHist (g : GImg) (v : Nat) : Nat := (pixelList g).count v

/-- Total first moment of the histogram (the numerator of OpenCV's
global mean `mu`). -/
def imgMoment (g : GImg) : Nat :=
  (List.range 256).foldl (fun acc (i : Nat) => acc + i * imgHist g i) 0

/-- Otsu threshold selection: the first bin maximising the between-class
variance, computed with exact integer statistics. -/
def otsuThreshold (g : GImg) : Nat :=
  ((List.range 256).foldl
      (otsuStep (imgHist g) (pixelList g).length (imgMoment g))
      (0, 0, 0, 1, 0)).2.2.2.2

/-- `cv2.threshold(img, 0, 255, THRESH_BINARY + THRESH_OTSU)`: pixels
strictly above the Otsu threshold become 255, the rest 0. -/
def thresholdBinaryOtsu (g : GImg) : GImg :=
  let t := otsuThreshold g
  ⟨g.rows, g.cols, tabulate g.rows g.cols fun y x => if t < g.px y x then 255 else 0⟩

/-- Structuring element: kernel extent, anchor (`(w/2, h/2)`, OpenCV's
default for `anchor=(-1,-1)`), and the on-pixel predicate in kernel
coordinates. -/
structure StructElem where
  kw : Nat
  kh : Nat
  aX : Nat
  aY : Nat
  isOn : Int → Int → Bool

/-- `cv2.getStructuringElement(cv2.MORPH_RECT, (w, h))`: all ones. -/
def getStructRect (w h : Nat) : StructElem :=
  ⟨w, h, w / 2, h / 2, fun _ _ => true⟩

/-- `cv2.getStructuringElement(cv2.MORPH_CROSS, (w, h))`: ones on the
anchor row and the anchor column. -/
def getStructCross (w h : Nat) : StructElem :=
  ⟨w, h, w / 2, h / 2, fun dy dx => dx == ((w / 2 : Nat) : Int) || dy == ((h / 2 : Nat) : Int)⟩

/-- Integer range `[lo, hi]` as a list (empty when `hi < lo`). -/
def rangeInt (lo hi : Int) : List Int :=
  (List.range (hi + 1 - lo).toNat).map fun k => lo + (k : Int)

/-- Source samples under the structuring element anchored at `(y, x)`.
Out-of-range positions are skipped, matching the default
`morphologyDefaultBorderValue` border (neutral for both erosion and
dilation). -/
def windowVals (se : StructElem) (g : GImg) (y x : Nat) : List Nat :=
  let y0 : Int := (y : Int) - (se.aY : Int)
  let x0 : Int := (x : Int) - (se.aX : Int)
  (rangeInt (max 0 y0) (min ((g.rows : Int) - 1) (y0 + (se.kh : Int) - 1))).flatMap fun sy =>
    (rangeInt (max 0 x0) (min ((g.cols : Int) - 1) (x0 + (se.kw : Int) - 1))).filterMap fun sx =>
      if se.isOn (sy - y0) (sx - x0) then some (g.px sy.toNat sx.toNat) else none

/-- `cv2.erode`: minimum under the structuring element (255 where the
window is entirely outside the image, as with the +infinity border). -/
def erodeOp (se : StructElem) (g : GImg) : GImg :=
  ⟨g.rows, g.cols, tabulate g.rows g.cols fun y x => (windowVals se g y x).foldl min 255⟩

/-- `cv2.dilate`: maximum under the structuring element. -/
def dilateOp (se : StructElem) (g : GImg) : GImg :=
  ⟨g.rows, g.cols, tabulate g.rows g.cols fun y x => (windowVals se g y x).foldl max 0⟩

/-- `cv2.morphologyEx(img, cv2.MORPH_CLOSE, se)`: dilate then erode. -/
def morphClose (se : StructElem) (g : GImg) : GImg :=
  erodeOp se (dilateOp se g)

/-- `cv2.morphologyEx(img, cv2.MORPH_OPEN, se)`: erode then dilate. -/
def morphOpen (se : StructElem) (g : GImg) : GImg :=
  dilateOp se (erodeOp se g)

/-- A contour: the OpenCV point list `(x, y)` tracing one outer border. -/
def Contour : Type := List (Int × Int)

instance : DecidableEq Contour := by
  unfold Contour
  infer_instance

/-- Foreground test at an `(x, y)` point: in bounds and nonzero. -/
def fgAt (g : GImg) (p : Int × Int) : Bool :=
  0 ≤ p.1 && p.1 < (g.cols : Int) && 0 ≤ p.2 && p.2 < (g.rows : Int) &&
    g.px p.2.toNat p.1.toNat != 0

/-- The eight chain-code displacements, in OpenCV's order: 0 is right and
the index increases rotating from right towards up (y decreasing). -/
def chainDelta (s : Nat) : Int × Int :=
  match s % 8 with
  | 0 => (1, 0)
  | 1 => (1, -1)
  | 2 => (0, -1)
  | 3 => (-1, -1)
  | 4 => (-1, 0)
  | 5 => (-1, 1)
  | 6 => (0, 1)
  | _ => (1, 1)

/-- Move one step along chain direction `s`. -/
def moveP (p : Int × Int) (s : Nat) : Int × Int :=
  (p.1 + (chainDelta s).1, p.2 + (chainDelta s).2)

/-- First foreground neighbour scanning the eight directions starting just
past the backtrack direction `back`, as the border-following step does. -/
def findDir (g : GImg) (p : Int × Int) (back : Nat) : Option Nat :=
  ((List.range 8).map fun k => (back + 1 + k) % 8).find? fun s => fgAt g (moveP p s)

/-- Border-following loop.  Emits a point whenever the walking direction
changes (the `CHAIN_APPROX_SIMPLE` compression of straight runs) and stops
on re-entering the start pixel with the initial direction. -/
def traceGo (g : GImg) (start : Int × Int) (d0 : Nat) :
    Nat → Int × Int → Nat → List (Int × Int) → List (Int × Int)
  | 0, _, _, acc => acc.reverse
  | fuel + 1, cur, prev, acc =>
    match findDir g cur ((prev + 4) % 8) with
    | none => acc.reverse
    | some d =>
      if cur = start ∧ d = d0 then acc.reverse
      else traceGo g start d0 fuel (moveP cur d) d (if d = prev then acc else cur :: acc)

/-- Trace the outer border of the component whose raster-first pixel is
`start` (its left neighbour is background there, so the backtrack
direction is 4, pointing left); an isolated pixel yields a one-point
contour. -/
def traceBorder (g : GImg) (start : Int × Int) : Contour :=
  match findDir g start 4 with
  | none => [start]
  | some d0 => traceGo g start d0 (g.rows * g.cols * 8 + 8) (moveP start d0) d0 [start]

/-- The eight neighbours of a point. -/
def neighbors8 (p : Int × Int) : List (Int × Int) :=
  (List.range 8).map fun s => moveP p s

/-- Depth-first collection of the 8-connected foreground component. -/
def compGo (g : GImg) : Nat → List (Int × Int) → List (Int × Int) → List (Int × Int)
  | 0, _, acc => acc
  | _ + 1, [], acc => acc
  | fuel + 1, p :: rest, acc =>
    if acc.contains p then compGo g fuel rest acc
    else compGo g fuel ((neighbors8 p).filter (fgAt g) ++ rest) (p :: acc)

/-- The 8-connected foreground component containing `p`. -/
def component (g : GImg) (p : Int × Int) : List (Int × Int) :=
  compGo g (g.rows * g.cols * 9 + 9) [p] []

/-- All pixel coordinates in raster-scan order, as `(x, y)` points. -/
def rasterPoints (g : GImg) : List (Int × Int) :=
  (List.range g.rows).flatMap fun y => (List.range g.cols).map fun x => ((x : Int), (y : Int))

/-- `cv2.findContours(mask, cv2.RETR_EXTERNAL, cv2.CHAIN_APPROX_SIMPLE)`:
one outer border per 8-connected foreground component, components in
raster order of their first pixel, each border compressed to its
direction-change points. -/
def findContoursExternal (g : GImg) : List Contour :=
  ((rasterPoints g).foldl
    (fun st p =>
      if fgAt g p && !(st.1.contains p) then
        (st.1 ++ component g p, st.2 ++ [traceBorder g p])
      else st)
    (([] : List (Int × Int)), ([] : List Contour))).2

/-- Signed double area of a closed polygon (shoelace over the cyclic point
sequence). -/
def shoelace (c : List (Int × Int)) : Int :=
  match c with
  | [] => 0
  | p0 :: _ =>
    (c.zip (c.drop 1 ++ [p0])).foldl
      (fun acc pq => acc + (pq.1.1 * pq.2.2 - pq.2.1 * pq.1.2)) 0

/-- `cv2.contourArea`: absolute Green-formula area of the contour. -/
def contourArea (c : Contour) : ℚ :=
  ((shoelace c).natAbs : ℚ) / 2

/-- Comparator of Python's `sorted(cont, key=cv2.contourArea,
reverse=True)`: `a` may precede `b` when its key is not smaller.  The
test compares the integer double areas, which is equivalent to comparing
the `contourArea` keys (`areaGe_iff` below) and lets the kernel evaluate
the sort. -/
def areaGe (a b : Contour) : Bool :=
  decide ((shoelace b).natAbs ≤ (shoelace a).natAbs)

theorem areaGe_iff (a b : Contour) :
    areaGe a b = true ↔ contourArea b ≤ contourArea a := by
  unfold areaGe contourArea
  rw [decide_eq_true_eq]
  constructor
  · intro h
    have h2 : (((shoelace b).natAbs : Nat) : ℚ) ≤ (((shoelace a).natAbs : Nat) : ℚ) := by
      exact_mod_cast h
    linarith
  · intro h
    have h2 : (((shoelace b).natAbs : Nat) : ℚ) ≤ (((shoelace a).natAbs : Nat) : ℚ) := by
      linarith
    exact_mod_cast h2

/-- Stable insertion into a list sorted by descending area: the new
element passes over exactly the elements of strictly larger area, so
among equal keys earlier input elements stay first. -/
def insertByArea (a : Contour) : List Contour → List Contour
  | [] => [a]
  | b :: t => if areaGe a b then a :: b :: t else b :: insertByArea a t

/-- Python's `sorted(cont, key=cv2.contourArea, reverse=True)`.  A stable
descending sort is extensionally unique, so this insertion sort is the
function the call computes. -/
def pySortedByAreaDesc (l : List Contour) : List Contour :=
  l.foldr insertByArea []

/-- `cv2.cvtColor(img, cv2.COLOR_RGB2GRAY)` on 8-bit data: fails on an
empty image (the `!_src.empty()` assertion) and on a channel count other
than 3 or 4 (the conversion accepts RGB and RGBA); otherwise applies the
fixed-point weights `(R,G,B) ↦ (4899*R + 9617*G + 1868*B + 2^13) >> 14`. -/
def cvtColorRGB2GRAY (img : CImg) : Except PyErr GImg :=
  if img.rows = 0 ∨ img.cols = 0 then .error .invalidImage
  else if img.channels = 3 ∨ img.channels = 4 then
    .ok ⟨img.rows, img.cols, tabulate img.rows img.cols fun y x =>
      (4899 * img.px y x 0 + 9617 * img.px y x 1 + 1868 * img.px y x 2 + 8192) / 16384⟩
  else .error .invalidImage

/-- Round to nearest, ties to even (`cvRound`). -/
def cvRound (q : ℚ) : Int :=
  let f := Int.floor q
  let r := q - (f : ℚ)
  if r < 1 / 2 then f
  else if 1 / 2 < r then f + 1
  else if f % 2 = 0 then f else f + 1

/-- `cv2.resize(img, dsize=(0,0), fx=s, fy=s)`: the output extent is
`cvRound` of the scaled extent; resampling is modelled as
nearest-neighbour source sampling (no statement below depends on the
resampled pixel values). -/
def cv2resize (img : CImg) (s : ℚ) : CImg :=
  let nr := (cvRound ((img.rows : ℚ) * s)).toNat
  let nc := (cvRound ((img.cols : ℚ) * s)).toNat
  ⟨nr, nc, img.channels, tabulateC nr nc img.channels fun y x ch =>
    if 0 < s then
      img.px (min (img.rows - 1) (Int.floor ((y : ℚ) / s)).toNat)
        (min (img.cols - 1) (Int.floor ((x : ℚ) / s)).toNat) ch
    else 0⟩

/-!  The functions of `barcode_detect.py`. -/

/-- `scale_image(img)`: scale factor `300 * 4.01 / img.shape[1]` (the
product `300 * 4.01` rounds to exactly 1203.0 in double precision); a
zero-width image makes the division raise `ZeroDivisionError`. -/
def scale_image (img : CImg) : Except PyErr CImg :=
  let target_dpi : ℚ := 300
  let ups_default_label_width : ℚ := 401 / 100
  if img.cols = 0 then .error .zeroDivisionError
  else .ok (cv2resize img (target_dpi * ups_default_label_width / (img.cols : ℚ)))

/-- `find_vertical_edges(img)`: horizontal Sobel at the input depth, 3x3
blur, then Otsu binary threshold. -/
def find_vertical_edges (g : GImg) : GImg :=
  thresholdBinaryOtsu (blur3 (sobelX_u8 g))

/-- `isolate_barcodes(img)`: closing with an 80x1 cross, then opening with
a 200x100 rectangle. -/
def isolate_barcodes (g : GImg) : GImg :=
  morphOpen (getStructRect 200 100) (morphClose (getStructCross 80 1) g)

/-- `id_and_rank_contours(img)`: external contours of a copy of the mask
(the copy is the identity in this pure embedding), stably sorted by
descending area. -/
def id_and_rank_contours (g : GImg) : List Contour :=
  pySortedByAreaDesc (findContoursExternal g)

/-- `get_barcode_contours(img)`: grayscale conversion (the scaling call is
commented out in the source), edge emphasis, morphological isolation,
contour ranking. -/
def get_barcode_contours (img : CImg) : Except PyErr (List Contour) :=
  (cvtColorRGB2GRAY img).map fun gr =>
    id_and_rank_contours (isolate_barcodes (find_vertical_edges gr))

/-!  The Angle Extractor of `detect_barcode_angle.py`.  `cv2.minAreaRect`
returns floating-point geometry, so it enters the embedding as an explicit
function parameter `mar`; likewise the composite
`cv2.drawContours(img, [np.int0(cv2.boxPoints(rect))], 0, color, 2)` is
the parameter `draw`.  `draw` receives and returns the image because
`cv2.drawContours` writes into the buffer passed to it. -/

/-- Minimal-area bounding rectangle: centre, size and native angle in
degrees, as `cv2.minAreaRect` reports them. -/
structure RotatedRect where
  center : ℚ × ℚ
  size : ℚ × ℚ
  angle : ℚ

/-- Rasterisation oracle for one box: image, fitted rectangle, BGR colour. -/
def DrawFn : Type := CImg → RotatedRect → Nat × Nat × Nat → CImg

/-- Rectangle-fit oracle standing for `cv2.minAreaRect`. -/
def MarFn : Type := Contour → RotatedRect

/-- `draw_all_contours(img, contours)`: each contour's min-area box is
drawn onto the image, the first (largest) in red `(0,0,255)`, the rest in
green `(0,255,0)`. -/
def draw_all_contours (mar : MarFn) (draw : DrawFn) (img : CImg)
    (contours : List Contour) : CImg :=
  (contours.enum).foldl
    (fun im ic => draw im (mar ic.2) (if ic.1 = 0 then (0, 0, 255) else (0, 255, 0)))
    img

/-- `get_angle(img)`: run detection, draw every contour's box onto the
input image, then read the native angle of the largest contour's min-area
rectangle and fold it: angles below -45 get 90 added.  The result pairs
the returned angle with the final state of the caller's image buffer;
indexing `contours[0]` on an empty list raises (modelled by
`PyErr.noBarcodeFound`, see the error taxonomy above). -/
def get_angle (mar : MarFn) (draw : DrawFn) (img : CImg) : Except PyErr (ℚ × CImg) :=
  match get_barcode_contours img with
  | .error e => .error e
  | .ok contours =>
    let imgd := draw_all_contours mar draw img contours
    match contours with
    | [] => .error .noBarcodeFound
    | c :: _ =>
      let angle := (mar c).angle
      .ok (if angle < -45 then angle + 90 else angle, imgd)

/-!  Concrete rasters and oracles used by witnesses and counterexamples. -/

/-- 8x10 colour image, black on the left half and value 200 on the right:
its vertical intensity step survives the whole detection pipeline as a
single candidate blob covering the image. -/
def golden : CImg :=
  ⟨8, 10, 3, tabulateC 8 10 3 fun _ x _ => if x < 5 then 0 else 200⟩

/-- The single contour the pipeline extracts from `golden`. -/
def goldenContour : Contour := [(0, 0), (0, 7), (9, 7), (9, 0)]

/-- Blank, uniform-intensity 4x4 colour image. -/
def blankImg : CImg :=
  ⟨4, 4, 3, tabulateC 4 4 3 fun _ _ _ => 128⟩

/-- Binary mask with two separate full-width blobs (rows 0-2 and rows
4-7), giving two contours of areas 18 and 27 in discovery order. -/
def maskW2 : GImg :=
  ⟨8, 10, tabulate 8 10 fun y _ => if y = 3 then 0 else 255⟩

/-- One-row grayscale image whose intensity falls from left to right, so
the horizontal derivative is negative in the interior. -/
def fallingRow : GImg := ⟨1, 3, [[200, 100, 0]]⟩

/-- Degenerate colour image of width zero. -/
def imgZeroWidth : CImg := ⟨3, 0, 3, [[], [], []]⟩

/-- Trivial rectangle-fit oracle. -/
def marDummy : MarFn := fun _ => ⟨(0, 0), (0, 0), -90⟩

/-- Rectangle-fit oracle reporting the native angle -45. -/
def marNeg45 : MarFn := fun _ => ⟨(9 / 2, 7 / 2), (9, 7), -45⟩

/-- Rectangle-fit oracle reporting the native angle -60. -/
def marNeg60 : MarFn := fun _ => ⟨(9 / 2, 7 / 2), (9, 7), -60⟩

/-- Draw oracle that paints nothing. -/
def drawDummy : DrawFn := fun im _ _ => im

/-!  Expected intermediate rasters of the two pipeline runs evaluated
below (stage results are spelled out so each stage is checked against a
literal, one stage at a time). -/

/-- Grayscale of `golden`. -/
def goldenGray : GImg :=
  ⟨8, 10, List.replicate 8 [0, 0, 0, 0, 0, 200, 200, 200, 200, 200]⟩

/-- Saturated Sobel stage of `golden`. -/
def goldenSobel : GImg :=
  ⟨8, 10, List.replicate 8 [0, 0, 0, 0, 255, 255, 0, 0, 0, 0]⟩

/-- Blur stage of `golden`. -/
def goldenBlur : GImg :=
  ⟨8, 10, List.replicate 8 [0, 0, 0, 85, 170, 170, 85, 0, 0, 0]⟩

/-- Edge map of `golden`. -/
def goldenMask : GImg :=
  ⟨8, 10, List.replicate 8 [0, 0, 0, 255, 255, 255, 255, 0, 0, 0]⟩

/-- Candidate mask of `golden`: one blob covering the raster. -/
def goldenFull : GImg :=
  ⟨8, 10, List.replicate 8 (List.replicate 10 255)⟩

/-- Grayscale of `blankImg`. -/
def blankGray : GImg :=
  ⟨4, 4, List.replicate 4 (List.replicate 4 128)⟩

/-- All-zero raster every later stage of the blank run produces. -/
def blankZero : GImg :=
  ⟨4, 4, List.replicate 4 (List.replicate 4 0)⟩

/-!  Helper lemmas. -/

theorem px_tabulate (r c : Nat) (f : Nat → Nat → Nat) (y x : Nat)
    (hy : y < r) (hx : x < c) : (GImg.mk r c (tabulate r c f)).px y x = f y x := by
  unfold GImg.px tabulate
  simp [List.getD_eq_getElem?_getD, List.getElem?_map, List.getElem?_range hy,
    List.getElem?_range hx]

theorem mem_insertByArea (x a : Contour) (l : List Contour) :
    x ∈ insertByArea a l ↔ x = a ∨ x ∈ l := by
  induction l with
  | nil => simp [insertByArea]
  | cons b t ih =>
    unfold insertByArea
    by_cases h : areaGe a b = true
    · rw [if_pos h]
      simp
    · rw [if_neg h]
      simp only [List.mem_cons, ih]
      tauto

theorem pairwise_insertByArea (a : Contour) (l : List Contour)
    (hl : l.Pairwise fun u v => contourArea v ≤ contourArea u) :
    (insertByArea a l).Pairwise fun u v => contourArea v ≤ contourArea u := by
  induction l with
  | nil => simp [insertByArea]
  | cons b t ih =>
    rcases List.pairwise_cons.mp hl with ⟨hb, ht⟩
    unfold insertByArea
    by_cases h : areaGe a b = true
    · rw [if_pos h]
      have hab : contourArea b ≤ contourArea a := (areaGe_iff a b).mp h
      refine List.pairwise_cons.mpr ⟨?_, hl⟩
      intro x hx
      rcases List.mem_cons.mp hx with rfl | hx
      · exact hab
      · exact le_trans (hb x hx) hab
    · rw [if_neg h]
      have h2 : ¬ contourArea b ≤ contourArea a := fun hc => h ((areaGe_iff a b).mpr hc)
      have hba : contourArea a ≤ contourArea b := le_of_lt (lt_of_not_le h2)
      refine List.pairwise_cons.mpr ⟨?_, ih ht⟩
      intro x hx
      rcases (mem_insertByArea x a t).mp hx with rfl | hx
      · exact hba
      · exact hb x hx

theorem pairwise_pySortedByAreaDesc (l : List Contour) :
    (pySortedByAreaDesc l).Pairwise fun u v => contourArea v ≤ contourArea u := by
  induction l with
  | nil => exact List.Pairwise.nil
  | cons a t ih => exact pairwise_insertByArea a (pySortedByAreaDesc t) ih

theorem filter_insertByArea (v : ℚ) (a : Contour) (l : List Contour) :
    (insertByArea a l).filter (fun c => decide (contourArea c = v)) =
      if contourArea a = v then a :: l.filter (fun c => decide (contourArea c = v))
      else l.filter (fun c => decide (contourArea c = v)) := by
  induction l with
  | nil =>
    by_cases ha : contourArea a = v <;> simp [insertByArea, List.filter, ha]
  | cons b t ih =>
    unfold insertByArea
    by_cases h : areaGe a b = true
    · rw [if_pos h]
      by_cases ha : contourArea a = v <;> simp [List.filter_cons, ha]
    · rw [if_neg h]
      have h2 : ¬ contourArea b ≤ contourArea a := fun hc => h ((areaGe_iff a b).mpr hc)
      have hlt : contourArea a < contourArea b := lt_of_not_le h2
      by_cases ha : contourArea a = v
      · have hb : ¬ contourArea b = v := by
          intro hbv
          rw [ha, hbv] at hlt
          exact lt_irrefl v hlt
        simp [List.filter_cons, ha, hb, ih]
      · by_cases hb : contourArea b = v <;> simp [List.filter_cons, ha, hb, ih]

theorem filter_pySortedByAreaDesc (v : ℚ) (l : List Contour) :
    (pySortedByAreaDesc l).filter (fun c => decide (contourArea c = v)) =
      l.filter (fun c => decide (contourArea c = v)) := by
  induction l with
  | nil => rfl
  | cons a t ih =>
    show ((insertByArea a (pySortedByAreaDesc t)).filter _) = _
    rw [filter_insertByArea]
    by_cases ha : contourArea a = v <;> simp [List.filter_cons, ha, ih]

/-!  Evaluation facts about the concrete rasters, shared by several
witnesses below.  Each pipeline stage is evaluated against a literal
raster, then the stage equations are chained. -/

theorem goldenGray_eq : cvtColorRGB2GRAY golden = .ok goldenGray := by rfl

theorem goldenSobel_eq : sobelX_u8 goldenGray = goldenSobel := by rfl

theorem goldenBlur_eq : blur3 goldenSobel = goldenBlur := by rfl

theorem goldenBlurLen : (pixelList goldenBlur).length = 80 := by rfl

theorem goldenBlurMoment : imgMoment goldenBlur = 4080 := by rfl

theorem goldenOtsu : otsuThreshold goldenBlur = 0 := by
  unfold otsuThreshold
  rw [goldenBlurLen, goldenBlurMoment]
  rfl

theorem goldenMask_eq : find_vertical_edges goldenGray = goldenMask := by
  unfold find_vertical_edges thresholdBinaryOtsu
  rw [goldenSobel_eq, goldenBlur_eq]
  simp only [goldenOtsu]
  rfl

theorem goldenClose1 : dilateOp (getStructCross 80 1) goldenMask = goldenFull := by rfl

theorem goldenClose2 : erodeOp (getStructCross 80 1) goldenFull = goldenFull := by rfl

theorem goldenOpen1 : erodeOp (getStructRect 200 100) goldenFull = goldenFull := by rfl

theorem goldenOpen2 : dilateOp (getStructRect 200 100) goldenFull = goldenFull := by rfl

theorem goldenIsolate_eq : isolate_barcodes goldenMask = goldenFull := by
  unfold isolate_barcodes morphOpen morphClose
  rw [goldenClose1, goldenClose2, goldenOpen1, goldenOpen2]

theorem goldenRanked_eq : id_and_rank_contours goldenFull = [goldenContour] := by rfl

theorem golden_contours : get_barcode_contours golden = .ok [goldenContour] := by
  unfold get_barcode_contours
  rw [goldenGray_eq]
  simp only [Except.map]
  rw [goldenMask_eq, goldenIsolate_eq, goldenRanked_eq]

theorem blankGray_eq : cvtColorRGB2GRAY blankImg = .ok blankGray := by rfl

theorem blankSobel_eq : sobelX_u8 blankGray = blankZero := by rfl

theorem blankBlur_eq : blur3 blankZero = blankZero := by rfl

theorem blankZeroLen : (pixelList blankZero).length = 16 := by rfl

theorem blankZeroMoment : imgMoment blankZero = 0 := by rfl

theorem blankOtsu : otsuThreshold blankZero = 0 := by
  unfold otsuThreshold
  rw [blankZeroLen, blankZeroMoment]
  rfl

theorem blankMask_eq : find_vertical_edges blankGray = blankZero := by
  unfold find_vertical_edges thresholdBinaryOtsu
  rw [blankSobel_eq, blankBlur_eq]
  simp only [blankOtsu]
  rfl

theorem blankClose1 : dilateOp (getStructCross 80 1) blankZero = blankZero := by rfl

theorem blankClose2 : erodeOp (getStructCross 80 1) blankZero = blankZero := by rfl

theorem blankOpen1 : erodeOp (getStructRect 200 100) blankZero = blankZero := by rfl

theorem blankOpen2 : dilateOp (getStructRect 200 100) blankZero = blankZero := by rfl

theorem blankIsolate_eq : isolate_barcodes blankZero = blankZero := by
  unfold isolate_barcodes morphOpen morphClose
  rw [blankClose1, blankClose2, blankOpen1, blankOpen2]

theorem blankRanked_eq : id_and_rank_contours blankZero = [] := by rfl

theorem blank_contours : get_barcode_contours blankImg = .ok [] := by
  unfold get_barcode_contours
  rw [blankGray_eq]
  simp only [Except.map]
  rw [blankMask_eq, blankIsolate_eq, blankRanked_eq]

/-!  Claim theorems. -/

/-- Claim C1: whenever the detection pipeline yields an empty ranked
boundary list, `get_angle` fails with the no-barcode error (the uncaught
`IndexError` at `contours[0]`, the code's only failure signal for an empty
list) — it neither raises at another site nor returns an angle. -/
theorem get_angle_empty_list_noBarcodeFound (mar : MarFn) (draw : DrawFn) (img : CImg)
    (h : get_barcode_contours img = .ok []) :
    get_angle mar draw img = .error .noBarcodeFound := by
  unfold get_angle
  rw [h]

/-- Witness for C1: the blank, uniform-intensity image produces an empty
ranked boundary list and the no-barcode failure. -/
theorem get_angle_empty_list_noBarcodeFound_w :
    get_barcode_contours blankImg = .ok [] ∧
      get_angle marDummy drawDummy blankImg = .error .noBarcodeFound :=
  ⟨blank_contours, get_angle_empty_list_noBarcodeFound marDummy drawDummy blankImg blank_contours⟩

/-- Claim C2, counterexample: on `golden`, with the rectangle fit
reporting a native angle of exactly -45, `get_angle` returns -45, not the
0 the claim demands: the source folds only angles strictly below -45. -/
theorem get_angle_native_neg45_cex :
    get_barcode_contours golden = .ok [goldenContour] ∧
      (marNeg45 goldenContour).angle = -45 ∧
      (get_angle marNeg45 drawDummy golden).map Prod.fst = .ok (-45) ∧
      (-45 : ℚ) ≠ 0 := by
  refine ⟨golden_contours, rfl, ?_, by norm_num⟩
  unfold get_angle
  rw [golden_contours]
  norm_num [Except.map, marNeg45]

/-- Claim C2, amended: if the minimal bounding rectangle of the largest
boundary has a native orientation angle of exactly -45 degrees, then
`get_angle` returns -45 unchanged (the correction applies only to angles
strictly less than -45). -/
theorem get_angle_native_neg45_returns_neg45 (mar : MarFn) (draw : DrawFn) (img : CImg)
    (c : Contour) (rest : List Contour)
    (hpipe : get_barcode_contours img = .ok (c :: rest))
    (hang : (mar c).angle = -45) :
    (get_angle mar draw img).map Prod.fst = .ok (-45) := by
  unfold get_angle
  rw [hpipe]
  simp only [hang, Except.map]
  norm_num

/-- Witness for the amended C2 at the concrete image `golden`. -/
theorem get_angle_native_neg45_returns_neg45_w :
    (get_angle marNeg45 drawDummy golden).map Prod.fst = .ok (-45) :=
  get_angle_native_neg45_returns_neg45 marNeg45 drawDummy golden goldenContour []
    golden_contours rfl

/-- Claim C3: for a native rectangle angle `a` in `[-90, 0)`, the
correction step of `get_angle` returns `a + 90` when `a < -45` and `a`
unchanged otherwise, and the corrected value lies in `[-45, 45)`. -/
theorem get_angle_fold_range (mar : MarFn) (draw : DrawFn) (img : CImg)
    (c : Contour) (rest : List Contour) (a : ℚ)
    (hpipe : get_barcode_contours img = .ok (c :: rest))
    (hang : (mar c).angle = a) (h1 : -90 ≤ a) (h2 : a < 0) :
    (get_angle mar draw img).map Prod.fst = .ok (if a < -45 then a + 90 else a) ∧
      -45 ≤ (if a < -45 then a + 90 else a) ∧ (if a < -45 then a + 90 else a) < 45 := by
  unfold get_angle
  rw [hpipe]
  refine ⟨by simp [hang, Except.map], ?_, ?_⟩ <;> split <;> linarith

/-- Witness for C3: a native angle of -60 on `golden` is folded to 30,
inside `[-45, 45)`. -/
theorem get_angle_fold_range_w :
    (get_angle marNeg60 drawDummy golden).map Prod.fst = .ok 30 ∧
      (-45 : ℚ) ≤ 30 ∧ (30 : ℚ) < 45 := by
  have h := get_angle_fold_range marNeg60 drawDummy golden goldenContour [] (-60)
    golden_contours rfl (by norm_num) (by norm_num)
  have e : (if (-60 : ℚ) < -45 then (-60 : ℚ) + 90 else -60) = 30 := by norm_num
  rw [e] at h
  exact h

/-- Claim C4 (supporting theorem): on `golden` the image state `get_angle`
leaves behind is the input with the largest contour's min-area box drawn
on it in red, for every rectangle-fit and rasterisation oracle — the draw
call is applied to the caller's buffer, so the input is not left
unchanged whenever the rasterisation paints any pixel. -/
theorem get_angle_returns_drawn_image (mar : MarFn) (draw : DrawFn) :
    get_angle mar draw golden =
      .ok (if (mar goldenContour).angle < -45 then (mar goldenContour).angle + 90
            else (mar goldenContour).angle,
          draw golden (mar goldenContour) (0, 0, 255)) := by
  unfold get_angle
  rw [golden_contours]
  rfl

/-- Claim C5: a degenerate image (zero width, zero height, or a channel
count the grayscale conversion rejects) fails with the invalid-image
error at `cvtColor`, before edge finding or morphology run. -/
theorem get_barcode_contours_invalidImage (img : CImg)
    (h : img.cols = 0 ∨ img.rows = 0 ∨ (img.channels ≠ 3 ∧ img.channels ≠ 4)) :
    cvtColorRGB2GRAY img = .error .invalidImage ∧
      get_barcode_contours img = .error .invalidImage := by
  have hc : cvtColorRGB2GRAY img = .error .invalidImage := by
    unfold cvtColorRGB2GRAY
    rcases h with h | h | h
    · rw [if_pos (Or.inr h)]
    · rw [if_pos (Or.inl h)]
    · by_cases hrc : img.rows = 0 ∨ img.cols = 0
      · rw [if_pos hrc]
      · rw [if_neg hrc, if_neg]
        rintro (h3 | h4)
        · exact h.1 h3
        · exact h.2 h4
  refine ⟨hc, ?_⟩
  unfold get_barcode_contours
  rw [hc]
  rfl

/-- Witness for C5: the zero-width image fails fast with the
invalid-image error. -/
theorem get_barcode_contours_invalidImage_w :
    cvtColorRGB2GRAY imgZeroWidth = .error .invalidImage ∧
      get_barcode_contours imgZeroWidth = .error .invalidImage :=
  get_barcode_contours_invalidImage imgZeroWidth (Or.inl rfl)

/-- Claim C6: on any mask giving at least one boundary, the ranked
boundary list is non-increasing in enclosed polygon area at every pair of
adjacent positions. -/
theorem id_and_rank_contours_area_nonincreasing (m : GImg)
    (hne : id_and_rank_contours m ≠ []) (i : Nat)
    (h : i + 1 < (id_and_rank_contours m).length) :
    contourArea ((id_and_rank_contours m).getD (i + 1) []) ≤
      contourArea ((id_and_rank_contours m).getD i []) := by
  have hp : (id_and_rank_contours m).Pairwise fun u v => contourArea v ≤ contourArea u :=
    pairwise_pySortedByAreaDesc (findContoursExternal m)
  have hi : i < (id_and_rank_contours m).length := Nat.lt_of_succ_lt h
  rw [List.getD_eq_get _ _ h, List.getD_eq_get _ _ hi]
  exact (List.pairwise_iff_get.mp hp) ⟨i, hi⟩ ⟨i + 1, h⟩ (Nat.lt_succ_self i)

/-- Witness for C6: the two-blob mask yields two boundaries with areas 27
then 18. -/
theorem id_and_rank_contours_area_nonincreasing_w :
    id_and_rank_contours maskW2 ≠ [] ∧
      contourArea ((id_and_rank_contours maskW2).getD 1 []) ≤
        contourArea ((id_and_rank_contours maskW2).getD 0 []) :=
  ⟨by decide, id_and_rank_contours_area_nonincreasing maskW2 (by decide) 0 (by decide)⟩

/-- Claim C7: bit-identical masks give identical ranked lists, and the
sort is stable — for every area value, the ranked list restricted to that
area equals the discovery-order contour list restricted to it. -/
theorem id_and_rank_contours_deterministic (m1 m2 : GImg) (h : m1 = m2) :
    id_and_rank_contours m1 = id_and_rank_contours m2 ∧
      ∀ v : ℚ, (id_and_rank_contours m1).filter (fun c => decide (contourArea c = v)) =
        (findContoursExternal m1).filter (fun c => decide (contourArea c = v)) := by
  subst h
  exact ⟨rfl, fun v => filter_pySortedByAreaDesc v (findContoursExternal m1)⟩

/-- Witness for C7 on the two-blob mask, with the tie class of area 18. -/
theorem id_and_rank_contours_deterministic_w :
    id_and_rank_contours maskW2 = id_and_rank_contours maskW2 ∧
      (id_and_rank_contours maskW2).filter (fun c => decide (contourArea c = 18)) =
        (findContoursExternal maskW2).filter (fun c => decide (contourArea c = 18)) :=
  ⟨(id_and_rank_contours_deterministic maskW2 maskW2 rfl).1,
    (id_and_rank_contours_deterministic maskW2 maskW2 rfl).2 18⟩

/-- Claim C8: `isolate_barcodes` is exactly the closing with the 80x1
cross (all 80 kernel pixels on) followed by the opening with the 200x100
all-ones rectangle, and it preserves the spatial dimensions. -/
theorem isolate_barcodes_spec (g : GImg) :
    isolate_barcodes g =
        morphOpen (getStructRect 200 100) (morphClose (getStructCross 80 1) g) ∧
      (isolate_barcodes g).rows = g.rows ∧ (isolate_barcodes g).cols = g.cols ∧
      (getStructCross 80 1).kw = 80 ∧ (getStructCross 80 1).kh = 1 ∧
      (∀ dx : Int, (getStructCross 80 1).isOn 0 dx = true) ∧
      (getStructRect 200 100).kw = 200 ∧ (getStructRect 200 100).kh = 100 ∧
      (∀ dy dx : Int, (getStructRect 200 100).isOn dy dx = true) := by
  refine ⟨rfl, rfl, rfl, rfl, rfl, ?_, rfl, rfl, fun _ _ => rfl⟩
  intro dx
  simp [getStructCross]

/-- Claim C9: `scale_image` divides the fixed target width 300 * 4.01 by
the image's pixel width with no guard, so a zero-width image raises the
division-by-zero error. -/
theorem scale_image_zero_width (img : CImg) (h : img.cols = 0) :
    scale_image img = .error .zeroDivisionError := by
  simp [scale_image, h]

/-- Witness for C9 at a concrete zero-width image. -/
theorem scale_image_zero_width_w :
    scale_image imgZeroWidth = .error .zeroDivisionError :=
  scale_image_zero_width imgZeroWidth rfl

/-- Claim C10: `find_vertical_edges` thresholds the blur of the Sobel
stage, and that stage saturates the raw derivative at the input's 8-bit
depth, so any pixel whose raw horizontal derivative is negative (intensity
falling left to right) is zero before blurring and thresholding. -/
theorem find_vertical_edges_saturation (g : GImg) :
    find_vertical_edges g = thresholdBinaryOtsu (blur3 (sobelX_u8 g)) ∧
      ∀ y x : Nat, y < g.rows → x < g.cols →
        (sobelX_u8 g).px y x = (min (max (sobelRawX g y x) 0) 255).toNat ∧
        (sobelRawX g y x < 0 → (sobelX_u8 g).px y x = 0) := by
  refine ⟨rfl, fun y x hy hx => ?_⟩
  have hpx : (sobelX_u8 g).px y x = satcast8 (sobelRawX g y x) := by
    unfold sobelX_u8
    exact px_tabulate g.rows g.cols _ y x hy hx
  refine ⟨hpx, fun hneg => ?_⟩
  rw [hpx]
  unfold satcast8
  rw [max_eq_right (le_of_lt hneg), min_eq_left (by norm_num)]
  rfl

/-- Witness for C10: on the falling-intensity row the raw derivative at
pixel (0, 1) is negative and the saturated Sobel output there is zero. -/
theorem find_vertical_edges_saturation_w :
    sobelRawX fallingRow 0 1 < 0 ∧ (sobelX_u8 fallingRow).px 0 1 = 0 :=
  ⟨by decide,
    ((find_vertical_edges_saturation fallingRow).2 0 1 (by decide) (by decide)).2 (by decide)⟩
